import Mathlib

/-!
Shallow embedding of `src/raytracing.c` (recursive ray tracer).

Modelling conventions:
* C `double` values are modelled as exact rationals `ℚ`; the `DBL_MAX`
  sentinel is the exact rational value of the IEEE-754 double `DBL_MAX`.
* Vectors, colors, texture coordinates and material identifiers are opaque
  collaborator types `V`, `C`, `T`, `M`; the external algebra/color
  operations (`algebra.h`, `color.h`) and the C `pow` function are fields
  of an `Env` record, and the scene/object/material/light accessors are
  fields of the corresponding records, exactly as the spec's §6 table of
  collaborator operations prescribes.
* The global variable `Color lastColor` is threaded through every call as
  explicit state (`St`), together with instrumentation counters recording
  how many times `rayTrace`, `shade` and `getNearestObject` are entered.
* The mutual recursion `rayTrace`/`shade` is defined structurally on an
  explicit fuel (`rayTraceF`); `rayTrace` instantiates the fuel with a
  canonical value that is provably sufficient (`rayTraceF_fuel_irrel`),
  so the fuel is semantically inert and every run of the C code is
  reproduced exactly.
-/

namespace RayTracing

/-- State threaded through a trace: the C global `lastColor` plus counters
instrumenting how often `getNearestObject`, `shade` and `rayTrace` are
entered (the spec's "collaborator that counts invocations"). -/
structure St (C : Type) where
  lastColor : C
  nNearest : ℕ
  nShade : ℕ
  nTrace : ℕ
  deriving DecidableEq

/-- An opaque scene object: `objIntercept`, `objNormalAt`,
`objTextureCoordinateAt`, `objGetMaterial`, `objInterceptExit`. -/
structure Object (V T M : Type) where
  intercept : V → V → ℚ
  normalAt : V → V
  textureCoordinateAt : V → T
  material : M
  interceptExit : V → V → V

/-- An opaque material: `materialGetDiffuse`, `materialGetSpecular`,
`materialGetSpecularExponent`, `materialGetReflectionFactor`,
`materialGetRefractionIndex`, `materialGetOpacity`. -/
structure Material (C T : Type) where
  diffuse : T → C
  specular : C
  specularExponent : ℚ
  reflectionFactor : ℚ
  refractionIndex : ℚ
  opacity : ℚ

/-- An opaque light: `lightGetPosition`, `lightGetColor`. -/
structure Light (V C : Type) where
  position : V
  color : C

/-- An opaque scene: object list (`sceneGetObjectCount`/`sceneGetObject`),
light list (`sceneGetLightCount`/`sceneGetLight`), `sceneGetAmbientLight`,
`sceneGetBackgroundColor`, `sceneGetMaterial`. -/
structure Scene (V C T M : Type) where
  objects : List (Object V T M)
  lights : List (Light V C)
  ambient : C
  background : V → V → C
  material : M → Material C T

/-- The external algebra (`algebra.h`), color (`color.h`) and math
(`pow`) collaborators consumed by `raytracing.c`. -/
structure Env (V C : Type) where
  algAdd : V → V → V
  algSub : V → V → V
  algScale : ℚ → V → V
  algUnit : V → V
  algDot : V → V → ℚ
  algNorm : V → ℚ
  algReflect : V → V → V
  algSnell : V → V → ℚ → ℚ → V
  colorAddition : C → C → C
  colorMultiplication : C → C → C
  colorScale : ℚ → C → C
  pow : ℚ → ℚ → ℚ

/-- Exact rational value of the IEEE-754 double `DBL_MAX`,
the "no hit" sentinel of `getNearestObject`.  Written as a numeral so
that it evaluates cheaply; `DBL_MAX_eq` states the usual form
`(2 ^ 53 - 1) * 2 ^ 971`. -/
def DBL_MAX : ℚ := 179769313486231570814527423731704356798070567525844996598917476803157260780028538760589558632766878171540458953514382464234321326889464182768467546703537516986049910576551282076245490090389328944075868508455133942304583236903222948165808559332123348274797826204144723168738177180919299881250404026184124858368

/-- `#define MAX_DEPTH 6` (raytracing.c line 34). -/
def MAX_DEPTH : ℤ := 6

/-- Self-intersection guard of `getNearestObject` (the literal `0.00001`,
raytracing.c line 240). -/
def epsSelf : ℚ := 1 / 100000

/-- Shadow epsilon of `isInShadow` (the literal `0.1`, raytracing.c
line 264). -/
def epsShadow : ℚ := 1 / 10

/-- Refraction index of air used by `shade` (the literal `1.00029`,
raytracing.c lines 168 and 171). -/
def airIndex : ℚ := 100029 / 100000

variable {V C T M : Type}

/-- The scan loop of `getNearestObject` (raytracing.c lines 236-245),
written as structural recursion over the remaining objects with the
accumulator `(closest, object)`. -/
def nearestFold (eye ray : V) :
    List (Object V T M) → ℚ × Option (Object V T M) → ℚ × Option (Object V T M)
  | [], acc => acc
  | currentObject :: rest, acc =>
    let distance := currentObject.intercept eye ray
    nearestFold eye ray rest
      (if epsSelf < distance ∧ distance < acc.1 then (distance, some currentObject)
       else acc)

/-- `getNearestObject` (raytracing.c lines 228-248).  The C out-parameter
`Object** object` is modelled by passing its prior contents `o0` in and
returning its final contents: it is written only when a candidate is
accepted. -/
def getNearestObject (scene : Scene V C T M) (eye ray : V)
    (o0 : Option (Object V T M)) : ℚ × Option (Object V T M) :=
  nearestFold eye ray scene.objects (DBL_MAX, o0)

/-- Proof-internal reformulation of `nearestFold`'s running minimum: the
`closest` accumulator after scanning `l`, starting from `c`. -/
def runningMin (eye ray : V) : List (Object V T M) → ℚ → ℚ
  | [], c => c
  | o :: l, c =>
    runningMin eye ray l
      (if epsSelf < o.intercept eye ray then min c (o.intercept eye ray) else c)

/-- Spec-side formulation (spec §4.2): the candidate intersection
distances that exceed the self-intersection epsilon, in iteration order.
The claims characterize `getNearestObject`'s result as the minimum of
this list (sentinel `DBL_MAX` if it is empty). -/
def acceptedDistances (eye ray : V) (l : List (Object V T M)) : List ℚ :=
  (l.map (fun o => o.intercept eye ray)).filter (fun x => epsSelf < x)

/-- The scan loop of `isInShadow` (raytracing.c lines 260-270), written
as structural recursion over the remaining objects with the opacity
accumulator. -/
def shadowFold (point rayToLight : V) (material : M → Material C T)
    (maxDistance : ℚ) : List (Object V T M) → ℚ → ℚ
  | [], opacity => opacity
  | obj :: rest, opacity =>
    let distance := obj.intercept point rayToLight
    shadowFold point rayToLight material maxDistance rest
      (if epsShadow < distance ∧ distance < maxDistance then
        opacity + (material obj.material).opacity
       else opacity)

/-- `isInShadow` (raytracing.c lines 250-273): accumulates the opacity of
every object whose hit distance along `rayToLight` lies strictly between
`0.1` and the distance from `point` to `lightLocation`. -/
def isInShadow (env : Env V C) (scene : Scene V C T M)
    (point rayToLight lightLocation : V) : ℚ :=
  let maxDistance := env.algNorm (env.algSub lightLocation point)
  shadowFold point rayToLight scene.material maxDistance scene.objects 0

/-- Transparency/refraction block of `shade` (raytracing.c lines 163-178).
`rt` is the recursive ray-trace entry; the accumulator is
`(color, ray, state)` — the C `shade` mutates both `color` and its `ray`
parameter here.  Note the entry normal (line 167) is *not* normalized,
while the exit normal (line 170) is. -/
def transparencyStep (env : Env V C) (rt : V → V → ℤ → St C → C × St C)
    (object : Object V T M) (point : V) (refractedIndex opacity : ℚ)
    (depth : ℤ) (acc : C × V × St C) : C × V × St C :=
  if opacity < 1 then
    let normal := object.normalAt point
    let innerRay := env.algSnell acc.2.1 normal airIndex refractedIndex
    let exitPoint := object.interceptExit point innerRay
    let normal2 := env.algUnit (object.normalAt exitPoint)
    let ray2 := env.algSnell innerRay (env.algScale (-1) normal2) refractedIndex airIndex
    let colorOpacity := rt exitPoint ray2 depth acc.2.2
    (env.colorAddition (env.colorScale (1 - opacity) colorOpacity.1)
        (env.colorScale opacity acc.1),
      ray2, colorOpacity.2)
  else acc

/-- Diffuse block of `shade` (raytracing.c lines 183-197). -/
def diffuseStep (env : Env V C) (normal pointToLightRay : V) (diffuse : C)
    (opacity shadowFactor : ℚ) (color : C) : C :=
  if 0 < opacity then
    let produto := env.algDot normal pointToLightRay
    if 0 < produto then
      let ic := env.colorScale opacity (env.colorScale produto diffuse)
      let ic := if shadowFactor ≠ 0 then env.colorScale (1 - shadowFactor) ic else ic
      env.colorAddition color ic
    else color
  else color

/-- Specular block of `shade` (raytracing.c lines 199-212).  The opacity
of the material is not among its inputs: the specular term is never
scaled by opacity. -/
def specularStep (env : Env V C) (normal pointToLightRay pointToEyeRay : V)
    (specular : C) (specularExponent shadowFactor : ℚ) (color : C) : C :=
  let reflected := env.algReflect pointToLightRay normal
  let produto := env.algDot reflected pointToEyeRay
  if 0 < produto then
    let p := env.pow (env.algDot reflected pointToEyeRay) specularExponent
    let ic := env.colorScale p specular
    let ic := if shadowFactor ≠ 0 then env.colorScale (1 - shadowFactor) ic else ic
    env.colorAddition color ic
  else color

/-- Mirror block of `shade` (raytracing.c lines 215-222): recursive trace
at `depth + 1`, scaled by the reflection factor. -/
def mirrorStep (env : Env V C) (rt : V → V → ℤ → St C → C × St C)
    (point pointToEyeRay normal : V) (reflectionFactor : ℚ) (depth : ℤ)
    (color : C) (st : St C) : C × St C :=
  if 0 < reflectionFactor then
    let reflecRay := env.algReflect pointToEyeRay normal
    let colorReflec := rt point reflecRay (depth + 1) st
    (env.colorAddition color (env.colorScale reflectionFactor colorReflec.1),
      colorReflec.2)
  else (color, st)

/-- One iteration of the per-light loop of `shade` (raytracing.c lines
150-223).  The accumulator is `(color, ray, state)`: `ray` is `shade`'s
own `ray` parameter, which the transparency block reassigns (line 171) so
that later iterations see the refracted direction.  `_intensitycolor` is
the fetch of the light's color (line 155); it is dead, being overwritten
before every use. -/
def shadeLightStep (env : Env V C) (scene : Scene V C T M)
    (rt : V → V → ℤ → St C → C × St C) (eye point normal : V)
    (object : Object V T M) (diffuse specular : C)
    (specularExponent reflectionFactor refractedIndex opacity : ℚ)
    (depth : ℤ) (acc : C × V × St C) (light : Light V C) : C × V × St C :=
  let softlight := light.position
  let _intensitycolor := light.color
  let pointToEyeRay := env.algUnit (env.algSub eye point)
  let pointToLightRay := env.algUnit (env.algSub softlight point)
  let acc1 := transparencyStep env rt object point refractedIndex opacity depth acc
  let interceptionOpacity := isInShadow env scene point pointToLightRay softlight
  let c1 := diffuseStep env normal pointToLightRay diffuse opacity interceptionOpacity acc1.1
  let c2 := specularStep env normal pointToLightRay pointToEyeRay specular
    specularExponent interceptionOpacity c1
  let res := mirrorStep env rt point pointToEyeRay normal reflectionFactor depth c2 acc1.2.2
  (res.1, acc1.2.1, res.2)

/-- Body of `shade` (raytracing.c lines 123-226), parameterized by the
recursive ray-trace entry `rt`: material lookup, ambient seed
(line 148), then the per-light loop. -/
def shadeCore (env : Env V C) (scene : Scene V C T M)
    (rt : V → V → ℤ → St C → C × St C) (eye ray : V)
    (object : Object V T M) (point normal : V) (depth : ℤ) (st : St C) :
    C × St C :=
  let st1 : St C := { st with nShade := st.nShade + 1 }
  let material := scene.material object.material
  let diffuse := material.diffuse (object.textureCoordinateAt point)
  let color0 := env.colorMultiplication diffuse scene.ambient
  let res := scene.lights.foldl
    (shadeLightStep env scene rt eye point normal object diffuse
      material.specular material.specularExponent material.reflectionFactor
      material.refractionIndex material.opacity depth)
    (color0, ray, st1)
  (res.1, res.2.2)

/-- `rayTrace` (raytracing.c lines 87-117) as a fuel-indexed function;
the fuel only serves to make the `rayTrace`/`shade` recursion structural
and is semantically inert for sufficient fuel (`rayTraceF_fuel_irrel`).
With fuel `0` (never reached from a sufficient starting fuel) it returns
the fallback color.  When `depth < MAX_DEPTH` the C code increments
`depth`, queries `getNearestObject` (out-parameter uninitialized, hence
`none`), returns the background color on the sentinel, and otherwise
shades and caches the result in `lastColor`; the `none` match arm models
the C reading of a never-written out-parameter, which cannot occur (the
distance is below the sentinel only if the pointer was written). -/
def rayTraceF : ℕ → Env V C → Scene V C T M → V → V → ℤ → St C → C × St C
  | 0, _, _, _, _, _, st => (st.lastColor, st)
  | fuel + 1, env, scene, eye, ray, depth, st =>
    if depth < MAX_DEPTH then
      let st1 : St C := { st with nTrace := st.nTrace + 1, nNearest := st.nNearest + 1 }
      let r := getNearestObject scene eye ray none
      if r.1 = DBL_MAX then (scene.background eye ray, st1)
      else
        match r.2 with
        | some object =>
          let point := env.algAdd eye (env.algScale r.1 ray)
          let normal := env.algUnit (object.normalAt point)
          let res := shadeCore env scene (rayTraceF fuel env scene) eye ray object
            point normal (depth + 1) st1
          (res.1, { res.2 with lastColor := res.1 })
        | none => (st.lastColor, { st with nTrace := st.nTrace + 1 })
    else (st.lastColor, { st with nTrace := st.nTrace + 1 })

/-- Canonical fuel: sufficient for every call chain starting at `depth`
(each recursion level strictly increases `depth`, which is capped at
`MAX_DEPTH`). -/
def need (depth : ℤ) : ℕ := 2 * (MAX_DEPTH - depth).toNat + 2

/-- `rayTrace` (raytracing.c lines 87-117). -/
def rayTrace (env : Env V C) (scene : Scene V C T M) (eye ray : V)
    (depth : ℤ) (st : St C) : C × St C :=
  rayTraceF (need depth) env scene eye ray depth st

/-- `shade` (raytracing.c lines 123-226): the body `shadeCore` with the
recursive entry being `rayTrace` itself. -/
def shade (env : Env V C) (scene : Scene V C T M) (eye ray : V)
    (object : Object V T M) (point normal : V) (depth : ℤ) (st : St C) :
    C × St C :=
  shadeCore env scene (fun a b dp s => rayTrace env scene a b dp s) eye ray
    object point normal depth st

/-!
Concrete collaborator instance used for witnesses and counterexamples: a
one-dimensional world where vectors and colors are rationals.  The
algebra collaborators are the 1-D specializations of the usual vector
operations; `algSnell` is the identity on the incident direction (any
choice is legitimate, the collaborators are opaque). -/

/-- 1-D instance of the external collaborators: positions/directions and
colors are rationals. -/
@[simps]
def qEnv : Env ℚ ℚ where
  algAdd := (· + ·)
  algSub := (· - ·)
  algScale := (· * ·)
  algUnit := fun v => if v < 0 then -1 else if v = 0 then 0 else 1
  algDot := (· * ·)
  algNorm := fun v => if v < 0 then -v else v
  algReflect := fun v n => 2 * (v * n) * n - v
  algSnell := fun v _ _ _ => v
  colorAddition := (· + ·)
  colorMultiplication := (· * ·)
  colorScale := (· * ·)
  pow := fun a _ => a

/-- A plane mirror at coordinate `p` with constant outward normal `n`:
hit distance `(p - o) / d` (the `DBL_MAX` sentinel when the ray is
parallel, and negative distances are rejected by the callers' guards). -/
@[simps]
def mirrorAt (p n : ℚ) : Object ℚ Unit Unit where
  intercept := fun o d => if d = 0 then DBL_MAX else (p - o) / d
  normalAt := fun _ => n
  textureCoordinateAt := fun _ => ()
  material := ()
  interceptExit := fun x _ => x

/-- A perfect-mirror material: reflection factor 1, opacity 1. -/
@[simps]
def mirrorMaterial : Material ℚ Unit where
  diffuse := fun _ => 1
  specular := 1
  specularExponent := 2
  reflectionFactor := 1
  refractionIndex := 1
  opacity := 1

/-- Two facing mirrors at 0 and 10, one light at 5 between them. -/
@[simps]
def mirrorScene : Scene ℚ ℚ Unit Unit where
  objects := [mirrorAt 0 1, mirrorAt 10 (-1)]
  lights := [{ position := 5, color := 3 }]
  ambient := 1
  background := fun _ _ => 0
  material := fun _ => mirrorMaterial

/-- `mirrorScene` with the light's color changed (position unchanged). -/
def mirrorScene2 : Scene ℚ ℚ Unit Unit :=
  { mirrorScene with lights := [{ position := 5, color := 99 }] }

/-- An object-free scene with a nonzero background color. -/
@[simps]
def bgScene : Scene ℚ ℚ Unit Unit where
  objects := []
  lights := []
  ambient := 0
  background := fun _ _ => 7
  material := fun _ => mirrorMaterial

/-- Fresh trace state: fallback color 0, all counters 0. -/
def st0 : St ℚ := { lastColor := 0, nNearest := 0, nShade := 0, nTrace := 0 }

/-- Trace state whose fallback color is 42. -/
def st42 : St ℚ := { st0 with lastColor := 42 }

/-! ### Fuel is semantically inert -/

/-- The numeral `DBL_MAX` is the exact value of the IEEE-754 double
`DBL_MAX = (2 ^ 53 - 1) · 2 ^ 971`. -/
theorem DBL_MAX_eq : DBL_MAX = (2 ^ 53 - 1) * 2 ^ 971 := by
  norm_num [DBL_MAX]

theorem need_pos (depth : ℤ) : 2 ≤ need depth := by
  simp only [need, MAX_DEPTH]; omega

theorem need_succ (depth : ℤ) (h : depth < MAX_DEPTH) :
    need (depth + 1) + 2 = need depth := by
  simp only [need, MAX_DEPTH] at h ⊢; omega

theorem need_antitone {d d' : ℤ} (h : d ≤ d') : need d' ≤ need d := by
  simp only [need, MAX_DEPTH]; omega

/-- The per-light loop body only invokes its recursive entry `rt` at
`depth` (transparency) and `depth + 1` (mirror). -/
theorem shadeLightStep_congr (env : Env V C) (scene : Scene V C T M)
    {rt₁ rt₂ : V → V → ℤ → St C → C × St C} (eye point normal : V)
    (object : Object V T M) (diffuse specular : C)
    (specularExponent reflectionFactor refractedIndex opacity : ℚ)
    (depth : ℤ)
    (h1 : ∀ a b s, rt₁ a b depth s = rt₂ a b depth s)
    (h2 : ∀ a b s, rt₁ a b (depth + 1) s = rt₂ a b (depth + 1) s) :
    shadeLightStep env scene rt₁ eye point normal object diffuse specular
        specularExponent reflectionFactor refractedIndex opacity depth
      = shadeLightStep env scene rt₂ eye point normal object diffuse specular
        specularExponent reflectionFactor refractedIndex opacity depth := by
  funext acc light
  simp only [shadeLightStep, transparencyStep, mirrorStep, h1, h2]

/-- The body of `shade` only invokes its recursive entry `rt` at `depth`
and `depth + 1`. -/
theorem shadeCore_congr (env : Env V C) (scene : Scene V C T M)
    {rt₁ rt₂ : V → V → ℤ → St C → C × St C} (eye ray : V)
    (object : Object V T M) (point normal : V) (depth : ℤ) (st : St C)
    (h1 : ∀ a b s, rt₁ a b depth s = rt₂ a b depth s)
    (h2 : ∀ a b s, rt₁ a b (depth + 1) s = rt₂ a b (depth + 1) s) :
    shadeCore env scene rt₁ eye ray object point normal depth st
      = shadeCore env scene rt₂ eye ray object point normal depth st := by
  simp only [shadeCore]
  rw [shadeLightStep_congr env scene eye point normal object _ _ _ _ _ _ depth h1 h2]

/-- Any fuel at least the canonical one yields the canonical result: the
fuel parameter of `rayTraceF` is semantically inert. -/
theorem rayTraceF_fuel_irrel (env : Env V C) (scene : Scene V C T M) :
    ∀ (fuel : ℕ) (depth : ℤ), need depth ≤ fuel → ∀ (eye ray : V) (st : St C),
      rayTraceF fuel env scene eye ray depth st
        = rayTraceF (need depth) env scene eye ray depth st := by
  intro fuel
  induction fuel using Nat.strong_induction_on with
  | _ fuel ih =>
    intro depth hfuel eye ray st
    have hpos : 2 ≤ need depth := need_pos depth
    obtain ⟨f, rfl⟩ : ∃ f, fuel = f + 1 := ⟨fuel - 1, by omega⟩
    obtain ⟨k, hk⟩ : ∃ k, need depth = k + 1 := ⟨need depth - 1, by omega⟩
    rw [hk]
    by_cases hd : depth < MAX_DEPTH
    · have harith : need (depth + 1) + 2 = need depth := need_succ depth hd
      have hmono : need (depth + 1 + 1) ≤ need (depth + 1) :=
        need_antitone (by omega)
      have h1f : ∀ a b s, rayTraceF f env scene a b (depth + 1) s
          = rayTraceF (need (depth + 1)) env scene a b (depth + 1) s :=
        fun a b s => ih f (by omega) (depth + 1) (by omega) a b s
      have h1k : ∀ a b s, rayTraceF k env scene a b (depth + 1) s
          = rayTraceF (need (depth + 1)) env scene a b (depth + 1) s :=
        fun a b s => ih k (by omega) (depth + 1) (by omega) a b s
      have h2f : ∀ a b s, rayTraceF f env scene a b (depth + 1 + 1) s
          = rayTraceF (need (depth + 1 + 1)) env scene a b (depth + 1 + 1) s :=
        fun a b s => ih f (by omega) (depth + 1 + 1) (by omega) a b s
      have h2k : ∀ a b s, rayTraceF k env scene a b (depth + 1 + 1) s
          = rayTraceF (need (depth + 1 + 1)) env scene a b (depth + 1 + 1) s :=
        fun a b s => ih k (by omega) (depth + 1 + 1) (by omega) a b s
      have hsc : ∀ (object : Object V T M) (point normal : V) (st' : St C),
          shadeCore env scene (rayTraceF f env scene) eye ray object point normal
              (depth + 1) st'
            = shadeCore env scene (rayTraceF k env scene) eye ray object point normal
              (depth + 1) st' :=
        fun o p n s' =>
          shadeCore_congr env scene eye ray o p n (depth + 1) s'
            (fun a b s => (h1f a b s).trans (h1k a b s).symm)
            (fun a b s => (h2f a b s).trans (h2k a b s).symm)
      simp only [rayTraceF, if_pos hd]
      simp only [hsc]
    · simp only [rayTraceF, if_neg hd]

/-- Unfolding equation of `rayTrace` in terms of `shade`: the literal
body of the C function (raytracing.c lines 87-117), with the recursion
expressed through the canonical `rayTrace`/`shade` pair. -/
theorem rayTrace_eq (env : Env V C) (scene : Scene V C T M) (eye ray : V)
    (depth : ℤ) (st : St C) :
    rayTrace env scene eye ray depth st =
      if depth < MAX_DEPTH then
        let st1 : St C := { st with nTrace := st.nTrace + 1, nNearest := st.nNearest + 1 }
        let r := getNearestObject scene eye ray none
        if r.1 = DBL_MAX then (scene.background eye ray, st1)
        else
          match r.2 with
          | some object =>
            let point := env.algAdd eye (env.algScale r.1 ray)
            let normal := env.algUnit (object.normalAt point)
            let res := shade env scene eye ray object point normal (depth + 1) st1
            (res.1, { res.2 with lastColor := res.1 })
          | none => (st.lastColor, { st with nTrace := st.nTrace + 1 })
      else (st.lastColor, { st with nTrace := st.nTrace + 1 }) := by
  obtain ⟨k, hk⟩ : ∃ k, need depth = k + 1 :=
    ⟨need depth - 1, by have := need_pos depth; omega⟩
  unfold rayTrace
  rw [hk]
  by_cases hd : depth < MAX_DEPTH
  · have harith := need_succ depth hd
    have h1 : ∀ (a b : V) (s : St C),
        rayTraceF k env scene a b (depth + 1) s
          = rayTrace env scene a b (depth + 1) s := by
      intro a b s
      unfold rayTrace
      exact rayTraceF_fuel_irrel env scene k (depth + 1) (by omega) a b s
    have h2 : ∀ (a b : V) (s : St C),
        rayTraceF k env scene a b (depth + 1 + 1) s
          = rayTrace env scene a b (depth + 1 + 1) s := by
      intro a b s
      unfold rayTrace
      have := need_antitone (show depth + 1 ≤ depth + 1 + 1 by omega)
      exact rayTraceF_fuel_irrel env scene k (depth + 1 + 1) (by omega) a b s
    have hsc : ∀ (object : Object V T M) (point normal : V) (st' : St C),
        shadeCore env scene (rayTraceF k env scene) eye ray object point normal
            (depth + 1) st'
          = shade env scene eye ray object point normal (depth + 1) st' := by
      intro o p n s'
      unfold shade
      exact shadeCore_congr env scene eye ray o p n (depth + 1) s'
        (fun a b s => h1 a b s) (fun a b s => h2 a b s)
    simp only [rayTraceF, if_pos hd]
    simp only [hsc]
  · simp only [rayTraceF, if_neg hd]

/-! ### The nearest-object scan computes a guarded running minimum -/

theorem nearestFold_fst (eye ray : V) :
    ∀ (l : List (Object V T M)) (c : ℚ) (o0 : Option (Object V T M)),
      (nearestFold eye ray l (c, o0)).1 = runningMin eye ray l c := by
  intro l
  induction l with
  | nil => intro c o0; rfl
  | cons o l ih =>
    intro c o0
    simp only [nearestFold, runningMin]
    by_cases h1 : epsSelf < o.intercept eye ray
    · by_cases h2 : o.intercept eye ray < c
      · rw [if_pos ⟨h1, h2⟩, if_pos h1, min_eq_right (le_of_lt h2)]
        exact ih _ _
      · rw [if_neg (fun hh => h2 hh.2), if_pos h1, min_eq_left (le_of_not_lt h2)]
        exact ih _ _
    · rw [if_neg (fun hh => h1 hh.1), if_neg h1]
      exact ih _ _

theorem foldr_min_min (l : List ℚ) (c x : ℚ) :
    l.foldr min (min c x) = min x (l.foldr min c) := by
  induction l with
  | nil => exact min_comm c x
  | cons a l ih => simp only [List.foldr_cons, ih, min_left_comm]

theorem runningMin_eq_foldr (eye ray : V) :
    ∀ (l : List (Object V T M)) (c : ℚ),
      runningMin eye ray l c = (acceptedDistances eye ray l).foldr min c := by
  intro l
  induction l with
  | nil => intro c; rfl
  | cons o l ih =>
    intro c
    by_cases h1 : epsSelf < o.intercept eye ray
    · simp only [runningMin, if_pos h1, acceptedDistances, List.map_cons,
        List.filter_cons, decide_eq_true_eq, h1, if_true, List.foldr_cons]
      rw [ih]
      exact foldr_min_min _ _ _
    · simp only [runningMin, if_neg h1, acceptedDistances, List.map_cons,
        List.filter_cons, decide_eq_true_eq, h1, if_false]
      exact ih _

theorem runningMin_le (eye ray : V) :
    ∀ (l : List (Object V T M)) (c : ℚ), runningMin eye ray l c ≤ c := by
  intro l
  induction l with
  | nil => intro c; exact le_refl c
  | cons o l ih =>
    intro c
    simp only [runningMin]
    by_cases h1 : epsSelf < o.intercept eye ray
    · rw [if_pos h1]; exact le_trans (ih _) (min_le_left _ _)
    · rw [if_neg h1]; exact ih _

theorem runningMin_attained (eye ray : V) :
    ∀ (l : List (Object V T M)) (c : ℚ), runningMin eye ray l c < c →
      ∃ o ∈ l, epsSelf < o.intercept eye ray ∧
        o.intercept eye ray = runningMin eye ray l c := by
  intro l
  induction l with
  | nil => intro c h; exact absurd h (lt_irrefl c)
  | cons o l ih =>
    intro c h
    simp only [runningMin] at h ⊢
    by_cases h1 : epsSelf < o.intercept eye ray
    · rw [if_pos h1] at h ⊢
      by_cases h2 : runningMin eye ray l (min c (o.intercept eye ray))
          < min c (o.intercept eye ray)
      · obtain ⟨o', ho', h1', heq'⟩ := ih _ h2
        exact ⟨o', List.mem_cons_of_mem _ ho', h1', heq'⟩
      · have heq : runningMin eye ray l (min c (o.intercept eye ray))
            = min c (o.intercept eye ray) :=
          le_antisymm (runningMin_le eye ray _ _) (le_of_not_lt h2)
        rw [heq] at h ⊢
        have hdc : o.intercept eye ray < c := by
          by_contra hcon
          rw [min_eq_left (le_of_not_lt hcon)] at h
          exact lt_irrefl c h
        rw [min_eq_right (le_of_lt hdc)]
        exact ⟨o, List.mem_cons_self _ _, h1, rfl⟩
    · rw [if_neg h1] at h ⊢
      obtain ⟨o', ho', h1', heq'⟩ := ih _ h
      exact ⟨o', List.mem_cons_of_mem _ ho', h1', heq'⟩

theorem nearestFold_snd (eye ray : V) :
    ∀ (l : List (Object V T M)) (c : ℚ) (o0 : Option (Object V T M)),
      (nearestFold eye ray l (c, o0)).2 =
        match l.find? (fun o => epsSelf < o.intercept eye ray ∧
            o.intercept eye ray < c ∧
            o.intercept eye ray = runningMin eye ray l c) with
        | some o => some o
        | none => o0 := by
  intro l
  induction l with
  | nil => intro c o0; rfl
  | cons o l ih =>
    intro c o0
    by_cases h1 : epsSelf < o.intercept eye ray
    · by_cases h2 : o.intercept eye ray < c
      · -- accepted candidate: the accumulator becomes (distance, some o)
        have hacc : epsSelf < o.intercept eye ray ∧ o.intercept eye ray < c := ⟨h1, h2⟩
        have hmin : min c (o.intercept eye ray) = o.intercept eye ray :=
          min_eq_right (le_of_lt h2)
        have hM : runningMin eye ray (o :: l) c
            = runningMin eye ray l (o.intercept eye ray) := by
          simp only [runningMin, if_pos h1, hmin]
        have hL : (nearestFold eye ray (o :: l) (c, o0)).2
            = (nearestFold eye ray l (o.intercept eye ray, some o)).2 := by
          simp only [nearestFold]
          rw [if_pos hacc]
        rw [hL, ih]
        simp only [hM]
        by_cases h3 : o.intercept eye ray = runningMin eye ray l (o.intercept eye ray)
        · -- the head object attains the final minimum: it wins
          have hfind : l.find? (fun o' => epsSelf < o'.intercept eye ray ∧
              o'.intercept eye ray < o.intercept eye ray ∧
              o'.intercept eye ray = runningMin eye ray l (o.intercept eye ray))
              = none := by
            rw [List.find?_eq_none]
            intro o' _
            simp only [decide_eq_true_eq, not_and]
            intro _ hlt heq'
            rw [heq', ← h3] at hlt
            exact lt_irrefl _ hlt
          have hhead : ((fun o' : Object V T M =>
              decide (epsSelf < o'.intercept eye ray ∧
              o'.intercept eye ray < c ∧
              o'.intercept eye ray = runningMin eye ray l (o.intercept eye ray))) o
              = true) := by
            simp only [decide_eq_true_eq]
            exact ⟨h1, h2, h3⟩
          have hcons : List.find? (fun o' : Object V T M =>
              decide (epsSelf < o'.intercept eye ray ∧
              o'.intercept eye ray < c ∧
              o'.intercept eye ray = runningMin eye ray l (o.intercept eye ray)))
              (o :: l) = some o :=
            List.find?_cons_of_pos _ hhead
          rw [hfind, hcons]
        · -- the head is beaten later: the final minimum lies in the tail
          have hlt : runningMin eye ray l (o.intercept eye ray) < o.intercept eye ray :=
            lt_of_le_of_ne (runningMin_le eye ray _ _) (fun hh => h3 hh.symm)
          have hpred : (fun o' : Object V T M =>
                decide (epsSelf < o'.intercept eye ray ∧
                o'.intercept eye ray < o.intercept eye ray ∧
                o'.intercept eye ray = runningMin eye ray l (o.intercept eye ray)))
              = (fun o' : Object V T M =>
                decide (epsSelf < o'.intercept eye ray ∧
                o'.intercept eye ray < c ∧
                o'.intercept eye ray = runningMin eye ray l (o.intercept eye ray))) := by
            funext o'
            rw [decide_eq_decide]
            constructor
            · rintro ⟨a, b, e⟩
              exact ⟨a, lt_trans b h2, e⟩
            · rintro ⟨a, b, e⟩
              exact ⟨a, by rw [e]; exact hlt, e⟩
          have hhead : ¬ ((fun o' : Object V T M =>
              decide (epsSelf < o'.intercept eye ray ∧
              o'.intercept eye ray < c ∧
              o'.intercept eye ray = runningMin eye ray l (o.intercept eye ray))) o
              = true) := by
            simp only [decide_eq_true_eq, not_and]
            intro _ _ heq'
            exact h3 heq'
          have hcons : List.find? (fun o' : Object V T M =>
              decide (epsSelf < o'.intercept eye ray ∧
              o'.intercept eye ray < c ∧
              o'.intercept eye ray = runningMin eye ray l (o.intercept eye ray)))
              (o :: l)
              = List.find? (fun o' : Object V T M =>
              decide (epsSelf < o'.intercept eye ray ∧
              o'.intercept eye ray < c ∧
              o'.intercept eye ray = runningMin eye ray l (o.intercept eye ray))) l :=
            List.find?_cons_of_neg _ hhead
          rw [hcons, ← hpred]
          obtain ⟨o', ho', h1', heq'⟩ := runningMin_attained eye ray l _ hlt
          cases hf : List.find? (fun o'' : Object V T M =>
              decide (epsSelf < o''.intercept eye ray ∧
              o''.intercept eye ray < o.intercept eye ray ∧
              o''.intercept eye ray = runningMin eye ray l (o.intercept eye ray))) l with
          | some o'' => rfl
          | none =>
            rw [List.find?_eq_none] at hf
            have hco : epsSelf < o'.intercept eye ray ∧
                o'.intercept eye ray < o.intercept eye ray ∧
                o'.intercept eye ray = runningMin eye ray l (o.intercept eye ray) :=
              ⟨h1', by rw [heq']; exact hlt, heq'⟩
            have hno := hf o' ho'
            simp only [decide_eq_true_eq] at hno
            exact absurd hco hno
      · -- distance not below the running closest: accumulator unchanged
        have hacc : ¬ (epsSelf < o.intercept eye ray ∧ o.intercept eye ray < c) :=
          fun hh => h2 hh.2
        have hM : runningMin eye ray (o :: l) c = runningMin eye ray l c := by
          simp only [runningMin, if_pos h1, min_eq_left (le_of_not_lt h2)]
        have hhead : ¬ ((fun o' : Object V T M =>
            decide (epsSelf < o'.intercept eye ray ∧
            o'.intercept eye ray < c ∧
            o'.intercept eye ray = runningMin eye ray (o :: l) c)) o = true) := by
          simp only [decide_eq_true_eq, not_and]
          intro _ hlt
          exact absurd hlt h2
        have hcons : List.find? (fun o' : Object V T M =>
            decide (epsSelf < o'.intercept eye ray ∧
            o'.intercept eye ray < c ∧
            o'.intercept eye ray = runningMin eye ray (o :: l) c)) (o :: l)
            = List.find? (fun o' : Object V T M =>
            decide (epsSelf < o'.intercept eye ray ∧
            o'.intercept eye ray < c ∧
            o'.intercept eye ray = runningMin eye ray (o :: l) c)) l :=
          List.find?_cons_of_neg _ hhead
        have hL : (nearestFold eye ray (o :: l) (c, o0)).2
            = (nearestFold eye ray l (c, o0)).2 := by
          simp only [nearestFold]
          rw [if_neg hacc]
        rw [hL, ih, hcons]
        simp only [hM]
    · -- distance below the self-intersection guard: candidate rejected
      have hacc : ¬ (epsSelf < o.intercept eye ray ∧ o.intercept eye ray < c) :=
        fun hh => h1 hh.1
      have hM : runningMin eye ray (o :: l) c = runningMin eye ray l c := by
        simp only [runningMin, if_neg h1]
      have hhead : ¬ ((fun o' : Object V T M =>
          decide (epsSelf < o'.intercept eye ray ∧
          o'.intercept eye ray < c ∧
          o'.intercept eye ray = runningMin eye ray (o :: l) c)) o = true) := by
        simp only [decide_eq_true_eq, not_and]
        intro ha
        exact absurd ha h1
      have hcons : List.find? (fun o' : Object V T M =>
          decide (epsSelf < o'.intercept eye ray ∧
          o'.intercept eye ray < c ∧
          o'.intercept eye ray = runningMin eye ray (o :: l) c)) (o :: l)
          = List.find? (fun o' : Object V T M =>
          decide (epsSelf < o'.intercept eye ray ∧
          o'.intercept eye ray < c ∧
          o'.intercept eye ray = runningMin eye ray (o :: l) c)) l :=
        List.find?_cons_of_neg _ hhead
      have hL : (nearestFold eye ray (o :: l) (c, o0)).2
          = (nearestFold eye ray l (c, o0)).2 := by
        simp only [nearestFold]
        rw [if_neg hacc]
      rw [hL, ih, hcons]
      simp only [hM]

/-! ### The shadow scan is a plain sum of opacities -/

theorem shadowFold_sum (point rayToLight : V) (material : M → Material C T)
    (maxDistance : ℚ) :
    ∀ (l : List (Object V T M)) (a : ℚ),
      shadowFold point rayToLight material maxDistance l a
        = a + (l.map (fun obj =>
            if epsShadow < obj.intercept point rayToLight ∧
                obj.intercept point rayToLight < maxDistance then
              (material obj.material).opacity
            else 0)).sum := by
  intro l
  induction l with
  | nil => intro a; simp [shadowFold]
  | cons o l ih =>
    intro a
    simp only [shadowFold, List.map_cons, List.sum_cons]
    by_cases h : epsShadow < o.intercept point rayToLight ∧
        o.intercept point rayToLight < maxDistance
    · rw [if_pos h, if_pos h, ih]
      ring
    · rw [if_neg h, if_neg h, ih]
      ring

/-! ### The trace result only depends on the lights through their positions -/

theorem foldl_forall₂ {α β γ : Type} {R : α → β → Prop} {f : γ → α → γ}
    {g : γ → β → γ} {l1 : List α} {l2 : List β} (h : List.Forall₂ R l1 l2)
    (hstep : ∀ acc a b, R a b → f acc a = g acc b) :
    ∀ init, l1.foldl f init = l2.foldl g init := by
  induction h with
  | nil => intro init; rfl
  | cons hab htl ih =>
    intro init
    simp only [List.foldl_cons]
    rw [hstep _ _ _ hab]
    exact ih _

theorem getNearestObject_scene_congr {s1 s2 : Scene V C T M}
    (hobj : s1.objects = s2.objects) :
    ∀ (eye ray : V) (o0 : Option (Object V T M)),
      getNearestObject s1 eye ray o0 = getNearestObject s2 eye ray o0 := by
  intro eye ray o0
  simp only [getNearestObject, hobj]

theorem isInShadow_scene_congr (env : Env V C) {s1 s2 : Scene V C T M}
    (hobj : s1.objects = s2.objects) (hmat : s1.material = s2.material) :
    ∀ (point rayToLight lightLocation : V),
      isInShadow env s1 point rayToLight lightLocation
        = isInShadow env s2 point rayToLight lightLocation := by
  intro point rayToLight lightLocation
  simp only [isInShadow, hobj, hmat]

theorem shadeLightStep_scene_congr (env : Env V C) {s1 s2 : Scene V C T M}
    (hobj : s1.objects = s2.objects) (hmat : s1.material = s2.material)
    {rt : V → V → ℤ → St C → C × St C} (eye point normal : V)
    (object : Object V T M) (diffuse specular : C)
    (specularExponent reflectionFactor refractedIndex opacity : ℚ) (depth : ℤ)
    {l1 l2 : Light V C} (hpos : l1.position = l2.position) (acc : C × V × St C) :
    shadeLightStep env s1 rt eye point normal object diffuse specular
        specularExponent reflectionFactor refractedIndex opacity depth acc l1
      = shadeLightStep env s2 rt eye point normal object diffuse specular
        specularExponent reflectionFactor refractedIndex opacity depth acc l2 := by
  simp only [shadeLightStep, hpos, isInShadow_scene_congr env hobj hmat]

theorem shadeCore_scene_congr (env : Env V C) {s1 s2 : Scene V C T M}
    (hobj : s1.objects = s2.objects) (hamb : s1.ambient = s2.ambient)
    (hmat : s1.material = s2.material)
    (hlights : List.Forall₂ (fun l1 l2 : Light V C => l1.position = l2.position)
      s1.lights s2.lights)
    {rt₁ rt₂ : V → V → ℤ → St C → C × St C}
    (hrt : ∀ a b dp s, rt₁ a b dp s = rt₂ a b dp s)
    (eye ray : V) (object : Object V T M) (point normal : V) (depth : ℤ)
    (st : St C) :
    shadeCore env s1 rt₁ eye ray object point normal depth st
      = shadeCore env s2 rt₂ eye ray object point normal depth st := by
  have hrt' : rt₁ = rt₂ :=
    funext fun a => funext fun b => funext fun dp => funext fun s => hrt a b dp s
  subst hrt'
  have hstep : ∀ (acc : C × V × St C) (a b : Light V C), a.position = b.position →
      shadeLightStep env s1 rt₁ eye point normal object
        ((s1.material object.material).diffuse (object.textureCoordinateAt point))
        (s1.material object.material).specular
        (s1.material object.material).specularExponent
        (s1.material object.material).reflectionFactor
        (s1.material object.material).refractionIndex
        (s1.material object.material).opacity depth acc a
      = shadeLightStep env s2 rt₁ eye point normal object
        ((s1.material object.material).diffuse (object.textureCoordinateAt point))
        (s1.material object.material).specular
        (s1.material object.material).specularExponent
        (s1.material object.material).reflectionFactor
        (s1.material object.material).refractionIndex
        (s1.material object.material).opacity depth acc b :=
    fun acc a b hab =>
      shadeLightStep_scene_congr env hobj hmat eye point normal object _ _ _ _ _ _
        depth hab acc
  simp only [shadeCore]
  rw [foldl_forall₂ hlights hstep, hmat, hamb]

theorem rayTraceF_scene_congr (env : Env V C) {s1 s2 : Scene V C T M}
    (hobj : s1.objects = s2.objects) (hamb : s1.ambient = s2.ambient)
    (hbg : s1.background = s2.background) (hmat : s1.material = s2.material)
    (hlights : List.Forall₂ (fun l1 l2 : Light V C => l1.position = l2.position)
      s1.lights s2.lights) :
    ∀ (fuel : ℕ) (eye ray : V) (depth : ℤ) (st : St C),
      rayTraceF fuel env s1 eye ray depth st = rayTraceF fuel env s2 eye ray depth st := by
  intro fuel
  induction fuel with
  | zero => intro eye ray depth st; rfl
  | succ f ih =>
    intro eye ray depth st
    by_cases hd : depth < MAX_DEPTH
    · have hsc : ∀ (object : Object V T M) (point normal : V) (st' : St C),
          shadeCore env s1 (rayTraceF f env s1) eye ray object point normal
              (depth + 1) st'
            = shadeCore env s2 (rayTraceF f env s2) eye ray object point normal
              (depth + 1) st' :=
        fun o p n s' =>
          shadeCore_scene_congr env hobj hamb hmat hlights
            (fun a b dp s => ih a b dp s) eye ray o p n (depth + 1) s'
      simp only [rayTraceF, if_pos hd, getNearestObject_scene_congr hobj, hbg, hsc]
    · simp only [rayTraceF, if_neg hd]

/-! ### Concrete evaluation of the two-facing-mirrors trace, level by level -/

theorem evalMirrorDepth6 (eye ray : ℚ) (st : St ℚ) :
    rayTrace qEnv mirrorScene eye ray 6 st
      = (st.lastColor, { st with nTrace := st.nTrace + 1 }) := by
  rw [rayTrace_eq, if_neg (show ¬((6 : ℤ) < MAX_DEPTH) by decide)]

set_option maxRecDepth 8000 in
set_option maxHeartbeats 1000000 in
theorem evalMirrorDepth4 (st : St ℚ) :
    rayTrace qEnv mirrorScene 0 1 4 st
      = (3 + st.lastColor,
         { lastColor := 3 + st.lastColor, nNearest := st.nNearest + 1,
           nShade := st.nShade + 1, nTrace := st.nTrace + 2 }) := by
  rw [rayTrace_eq, if_pos (show (4 : ℤ) < MAX_DEPTH by decide)]
  norm_num [shade, shadeCore, shadeLightStep, transparencyStep, diffuseStep,
    specularStep, mirrorStep, getNearestObject, nearestFold, isInShadow, shadowFold,
    epsSelf, epsShadow, airIndex,
    DBL_MAX, evalMirrorDepth6, List.foldl_cons, List.foldl_nil]

set_option maxRecDepth 8000 in
set_option maxHeartbeats 1000000 in
theorem evalMirrorDepth2 (st : St ℚ) :
    rayTrace qEnv mirrorScene 10 (-1) 2 st
      = (6 + st.lastColor,
         { lastColor := 6 + st.lastColor, nNearest := st.nNearest + 2,
           nShade := st.nShade + 2, nTrace := st.nTrace + 3 }) := by
  rw [rayTrace_eq, if_pos (show (2 : ℤ) < MAX_DEPTH by decide)]
  norm_num [shade, shadeCore, shadeLightStep, transparencyStep, diffuseStep,
    specularStep, mirrorStep, getNearestObject, nearestFold, isInShadow, shadowFold,
    epsSelf, epsShadow, airIndex,
    DBL_MAX, evalMirrorDepth4, List.foldl_cons, List.foldl_nil]
  ring

set_option maxRecDepth 8000 in
set_option maxHeartbeats 1000000 in
theorem evalMirrorDepth0 (st : St ℚ) :
    rayTrace qEnv mirrorScene 5 1 0 st
      = (9 + st.lastColor,
         { lastColor := 9 + st.lastColor, nNearest := st.nNearest + 3,
           nShade := st.nShade + 3, nTrace := st.nTrace + 4 }) := by
  rw [rayTrace_eq, if_pos (show (0 : ℤ) < MAX_DEPTH by decide)]
  norm_num [shade, shadeCore, shadeLightStep, transparencyStep, diffuseStep,
    specularStep, mirrorStep, getNearestObject, nearestFold, isInShadow, shadowFold,
    epsSelf, epsShadow, airIndex,
    DBL_MAX, evalMirrorDepth2, List.foldl_cons, List.foldl_nil]
  ring

/-! ### Claim theorems -/

/-- Claim C1: `rayTrace` is total (it is a Lean function), and a call at
or above the depth limit `MAX_DEPTH = 6` performs no work: no
nearest-object query (`nNearest` unchanged), no shading (`nShade`
unchanged), no recursive trace (only the call itself is recorded in
`nTrace`), the fallback state is not rewritten, and the returned value is
the most recently computed fallback color `st.lastColor`. -/
theorem rayTrace_depth_limit (env : Env V C) (scene : Scene V C T M)
    (eye ray : V) (depth : ℤ) (st : St C) (h : MAX_DEPTH ≤ depth) :
    rayTrace env scene eye ray depth st
      = (st.lastColor, { st with nTrace := st.nTrace + 1 }) := by
  rw [rayTrace_eq]
  rw [if_neg (not_lt.mpr h)]

/-- Witness for C1 at a concrete scene, ray and depth `6`. -/
theorem rayTrace_depth_limit_witness :
    MAX_DEPTH ≤ (6 : ℤ) ∧
      rayTrace qEnv mirrorScene 5 1 6 st0
        = (st0.lastColor, { st0 with nTrace := st0.nTrace + 1 }) :=
  ⟨by decide, rayTrace_depth_limit qEnv mirrorScene 5 1 6 st0 (by decide)⟩

/-- Claim C2: below the depth limit, if the nearest-object query returns
the `DBL_MAX` sentinel (no accepted intersection), `rayTrace` returns
exactly the scene's background color evaluated at the ray's origin and
direction. -/
theorem rayTrace_nohit_background (env : Env V C) (scene : Scene V C T M)
    (eye ray : V) (depth : ℤ) (st : St C) (h1 : depth < MAX_DEPTH)
    (h2 : (getNearestObject scene eye ray none).1 = DBL_MAX) :
    (rayTrace env scene eye ray depth st).1 = scene.background eye ray := by
  simp only [rayTrace_eq, if_pos h1, if_pos h2]

set_option maxRecDepth 8000 in
set_option maxHeartbeats 1000000 in
attribute [local semireducible] Rat.add Rat.mul Rat.inv Rat.sub in
/-- Witness for C2: in the mirror scene a ray with direction `0` hits
nothing and yields the background color. -/
theorem rayTrace_nohit_background_witness :
    (0 : ℤ) < MAX_DEPTH ∧ (getNearestObject mirrorScene (5 : ℚ) 0 none).1 = DBL_MAX ∧
      (rayTrace qEnv mirrorScene 5 0 0 st0).1 = mirrorScene.background 5 0 :=
  ⟨by decide, by decide,
    rayTrace_nohit_background qEnv mirrorScene 5 0 0 st0 (by decide) (by decide)⟩

/-- Claim C3: `getNearestObject` returns the minimum of the intersection
distances exceeding the self-intersection epsilon `1e-5` (`DBL_MAX` if
none); the returned object is the first — smallest iteration index —
object attaining that minimum (a distance at or above the `DBL_MAX`
sentinel encodes "no hit" and never sets the object); and when no object
qualifies the out-parameter keeps its prior contents `o0`. -/
theorem getNearestObject_spec (scene : Scene V C T M) (eye ray : V)
    (o0 : Option (Object V T M)) :
    (getNearestObject scene eye ray o0).1
        = (acceptedDistances eye ray scene.objects).foldr min DBL_MAX
    ∧ (getNearestObject scene eye ray o0).2
        = match scene.objects.find? (fun o => epsSelf < o.intercept eye ray ∧
            o.intercept eye ray < DBL_MAX ∧
            o.intercept eye ray
              = (acceptedDistances eye ray scene.objects).foldr min DBL_MAX) with
          | some o => some o
          | none => o0 := by
  constructor
  · unfold getNearestObject
    rw [nearestFold_fst eye ray, runningMin_eq_foldr eye ray]
  · unfold getNearestObject
    rw [nearestFold_snd eye ray]
    simp only [runningMin_eq_foldr eye ray]

/-- Claim C4: `isInShadow` returns exactly the sum, over all scene
objects (every object is examined, no early exit), of the opacity of
those objects whose intersection distance lies strictly between the
shadow epsilon `0.1` and the point-to-light distance; the sum is not
clamped, and it is `0` when no object qualifies (all summands vanish). -/
theorem isInShadow_spec (env : Env V C) (scene : Scene V C T M)
    (point rayToLight lightLocation : V) :
    isInShadow env scene point rayToLight lightLocation
      = (scene.objects.map (fun obj =>
          if epsShadow < obj.intercept point rayToLight ∧
              obj.intercept point rayToLight
                < env.algNorm (env.algSub lightLocation point) then
            (scene.material obj.material).opacity
          else 0)).sum := by
  unfold isInShadow
  rw [shadowFold_sum]
  rw [zero_add]

/-- Claim C5: whenever the material opacity is strictly below `1`, the
per-light transparency block refracts the ray into the object by Snell's
law (air index `1.00029` to the material's refraction index), queries the
object's interior exit point, re-evaluates and normalizes the normal
there, refracts again leaving the object (material index to `1.00029`),
traces that ray recursively via `rayTrace`, and replaces the accumulated
color by `opacity · color + (1 − opacity) · transmitted`. -/
theorem shade_transparency_refraction (env : Env V C) (scene : Scene V C T M)
    (object : Object V T M) (point : V) (refractedIndex opacity : ℚ)
    (depth : ℤ) (acc : C × V × St C) (h : opacity < 1) :
    transparencyStep env (fun a b dp s => rayTrace env scene a b dp s) object
        point refractedIndex opacity depth acc
      = (let normal1 := object.normalAt point
         let innerRay := env.algSnell acc.2.1 normal1 airIndex refractedIndex
         let exitPoint := object.interceptExit point innerRay
         let normal2 := env.algUnit (object.normalAt exitPoint)
         let ray2 := env.algSnell innerRay (env.algScale (-1) normal2)
           refractedIndex airIndex
         let colorOpacity := rayTrace env scene exitPoint ray2 depth acc.2.2
         (env.colorAddition (env.colorScale (1 - opacity) colorOpacity.1)
            (env.colorScale opacity acc.1), ray2, colorOpacity.2)) := by
  simp only [transparencyStep, if_pos h]

set_option maxRecDepth 8000 in
set_option maxHeartbeats 1000000 in
attribute [local semireducible] Rat.add Rat.mul Rat.inv Rat.sub in
/-- Witness for C5 with opacity `1/2` in the mirror scene. -/
theorem shade_transparency_refraction_witness :
    (1 / 2 : ℚ) < 1 ∧
      transparencyStep qEnv (fun a b dp s => rayTrace qEnv mirrorScene a b dp s)
        (mirrorAt 0 1) 10 (3 / 2) (1 / 2) 0 (1, 1, st0)
        = (1 / 2, 1, { lastColor := 0, nNearest := 1, nShade := 0, nTrace := 1 }) :=
  ⟨by norm_num,
    (shade_transparency_refraction qEnv mirrorScene (mirrorAt 0 1) 10 (3 / 2)
      (1 / 2) 0 (1, 1, st0) (by norm_num)).trans (by decide)⟩

/-- Claim C6: `shade` is the shading body whose recursive entry is
`rayTrace`; inside it, the transparency block traces the transmitted ray
at the *same* depth `shade` received, while the mirror block traces the
reflected ray at `depth + 1`, scales it by the reflection factor and adds
it only when that factor is strictly positive. -/
theorem shade_depth_accounting (env : Env V C) (scene : Scene V C T M)
    (eye ray point normal pointToEyeRay : V) (object : Object V T M)
    (refractedIndex opacity reflectionFactor : ℚ) (depth : ℤ)
    (acc : C × V × St C) (color : C) (st : St C) :
    (shade env scene eye ray object point normal depth st
      = shadeCore env scene (fun a b dp s => rayTrace env scene a b dp s) eye ray
        object point normal depth st)
    ∧ (transparencyStep env (fun a b dp s => rayTrace env scene a b dp s) object
        point refractedIndex opacity depth acc
      = if opacity < 1 then
          let normal1 := object.normalAt point
          let innerRay := env.algSnell acc.2.1 normal1 airIndex refractedIndex
          let exitPoint := object.interceptExit point innerRay
          let normal2 := env.algUnit (object.normalAt exitPoint)
          let ray2 := env.algSnell innerRay (env.algScale (-1) normal2)
            refractedIndex airIndex
          let colorOpacity := rayTrace env scene exitPoint ray2 depth acc.2.2
          (env.colorAddition (env.colorScale (1 - opacity) colorOpacity.1)
             (env.colorScale opacity acc.1), ray2, colorOpacity.2)
        else acc)
    ∧ (mirrorStep env (fun a b dp s => rayTrace env scene a b dp s) point
        pointToEyeRay normal reflectionFactor depth color st
      = if 0 < reflectionFactor then
          let reflecRay := env.algReflect pointToEyeRay normal
          let colorReflec := rayTrace env scene point reflecRay (depth + 1) st
          (env.colorAddition color (env.colorScale reflectionFactor colorReflec.1),
            colorReflec.2)
        else (color, st)) :=
  ⟨rfl, rfl, rfl⟩

/-- Claim C7: the specular contribution is added only for a strictly
positive dot product of the reflected light direction with the eye
direction, equals that dot product raised (via `pow`) to the specular
exponent times the specular color, is attenuated by `1 − shadowFactor`
exactly when the shadow factor is nonzero, and is never scaled by the
material opacity — `specularStep` does not even take the opacity as an
input, unlike the diffuse block, whose equation (second conjunct) shows
the extra `colorScale opacity`. -/
theorem shade_specular_spec (env : Env V C)
    (normal pointToLightRay pointToEyeRay : V) (diffuse specular : C)
    (opacity specularExponent shadowFactor : ℚ) (color : C) :
    (specularStep env normal pointToLightRay pointToEyeRay specular
        specularExponent shadowFactor color
      = if 0 < env.algDot (env.algReflect pointToLightRay normal) pointToEyeRay then
          env.colorAddition color
            (if shadowFactor ≠ 0 then
              env.colorScale (1 - shadowFactor)
                (env.colorScale (env.pow (env.algDot
                  (env.algReflect pointToLightRay normal) pointToEyeRay)
                  specularExponent) specular)
             else
              env.colorScale (env.pow (env.algDot
                (env.algReflect pointToLightRay normal) pointToEyeRay)
                specularExponent) specular)
        else color)
    ∧ (diffuseStep env normal pointToLightRay diffuse opacity shadowFactor color
      = if 0 < opacity then
          if 0 < env.algDot normal pointToLightRay then
            env.colorAddition color
              (if shadowFactor ≠ 0 then
                env.colorScale (1 - shadowFactor)
                  (env.colorScale opacity
                    (env.colorScale (env.algDot normal pointToLightRay) diffuse))
               else
                env.colorScale opacity
                  (env.colorScale (env.algDot normal pointToLightRay) diffuse))
          else color
        else color) :=
  ⟨rfl, rfl⟩

/-- Counterexample to claim C8 as stated: in the two-facing-mirrors scene
(reflection factor 1, opacity 1), the primary trace at depth 0 enters
`rayTrace` 4 times in total, i.e. 3 recursive ray-trace calls — not 6:
each mirror bounce consumes two depth levels, because `rayTrace`
increments `depth` before shading and the mirror block calls back at
`depth + 1`. -/
theorem mirror_recursion_count_cex :
    (rayTrace qEnv mirrorScene 5 1 0 st0).2.nTrace - st0.nTrace = 4 ∧
      ¬((rayTrace qEnv mirrorScene 5 1 0 st0).2.nTrace - st0.nTrace - 1 = 6) ∧
      ¬((rayTrace qEnv mirrorScene 5 1 0 st0).2.nTrace - st0.nTrace = 6) := by
  rw [evalMirrorDepth0 st0]
  norm_num [st0]

/-- Claim C8 amended: the two-facing-mirrors primary trace terminates,
makes exactly 3 recursive ray-trace calls (4 `rayTrace` entries counting
the primary; the depth sequence is 0, 2, 4, 6 and the last call hits the
depth limit), and returns the finite color 9. -/
theorem mirror_recursion_amended :
    rayTrace qEnv mirrorScene 5 1 0 st0
      = (9, { lastColor := 9, nNearest := 3, nShade := 3, nTrace := 4 }) := by
  rw [evalMirrorDepth0 st0]
  norm_num [st0]

set_option maxRecDepth 8000 in
set_option maxHeartbeats 1000000 in
attribute [local semireducible] Rat.add Rat.mul Rat.inv Rat.sub in
/-- Counterexample to claim C9 as stated: a no-hit top-level trace
returns the background color but does *not* write the fallback color
state — the early `return` skips the `lastColor` assignment, so the
fallback keeps its old value 42 while the call returns 7. -/
theorem rayTrace_lastColor_cex :
    (rayTrace qEnv bgScene 0 1 0 st42).2.lastColor
      ≠ (rayTrace qEnv bgScene 0 1 0 st42).1 := by
  decide

/-- Claim C9 amended: a trace below the depth limit writes the fallback
color — which then equals the returned color — exactly when an object is
hit; in the no-hit case the background color is returned and the
fallback state is left unchanged. -/
theorem rayTrace_lastColor_amended (env : Env V C) (scene : Scene V C T M)
    (eye ray : V) (depth : ℤ) (st : St C) (h : depth < MAX_DEPTH) :
    ((getNearestObject scene eye ray none).1 = DBL_MAX →
        (rayTrace env scene eye ray depth st).1 = scene.background eye ray ∧
        (rayTrace env scene eye ray depth st).2.lastColor = st.lastColor)
    ∧ ((getNearestObject scene eye ray none).1 ≠ DBL_MAX →
        (rayTrace env scene eye ray depth st).2.lastColor
          = (rayTrace env scene eye ray depth st).1) := by
  constructor
  · intro h2
    simp only [rayTrace_eq, if_pos h, if_pos h2]
    constructor <;> trivial
  · intro h2
    simp only [rayTrace_eq, if_pos h, if_neg h2]
    cases hro : (getNearestObject scene eye ray none).2 with
    | some object => simp only [hro]
    | none => simp only [hro]

set_option maxRecDepth 8000 in
set_option maxHeartbeats 1000000 in
attribute [local semireducible] Rat.add Rat.mul Rat.inv Rat.sub in
/-- Witness for the amended C9 at the mirror scene (hit case). -/
theorem rayTrace_lastColor_amended_witness :
    (0 : ℤ) < MAX_DEPTH ∧
      ((getNearestObject mirrorScene (5 : ℚ) 1 none).1 ≠ DBL_MAX ∧
        (rayTrace qEnv mirrorScene 5 1 0 st0).2.lastColor
          = (rayTrace qEnv mirrorScene 5 1 0 st0).1) :=
  ⟨by decide, by decide,
    (rayTrace_lastColor_amended qEnv mirrorScene 5 1 0 st0 (by decide)).2 (by decide)⟩

/-- Claim C10: the trace result does not depend on the colors/intensities
of the lights.  For two scenes that agree on objects, ambient color,
background, materials, and the *positions* of their lights (colors
arbitrary), `rayTrace` returns identical results — the fetched light
color is dead, overwritten before any use. -/
theorem rayTrace_light_color_independent (env : Env V C) {s1 s2 : Scene V C T M}
    (hobj : s1.objects = s2.objects) (hamb : s1.ambient = s2.ambient)
    (hbg : s1.background = s2.background) (hmat : s1.material = s2.material)
    (hlights : List.Forall₂ (fun l1 l2 : Light V C => l1.position = l2.position)
      s1.lights s2.lights)
    (eye ray : V) (depth : ℤ) (st : St C) :
    rayTrace env s1 eye ray depth st = rayTrace env s2 eye ray depth st := by
  unfold rayTrace
  exact rayTraceF_scene_congr env hobj hamb hbg hmat hlights (need depth) eye ray
    depth st

/-- Witness for C10: the mirror scene with light color 3 and the same
scene with light color 99 trace identically. -/
theorem rayTrace_light_color_independent_witness :
    rayTrace qEnv mirrorScene 5 1 0 st0 = rayTrace qEnv mirrorScene2 5 1 0 st0 :=
  @rayTrace_light_color_independent ℚ ℚ Unit Unit qEnv mirrorScene mirrorScene2
    rfl rfl rfl rfl (List.Forall₂.cons rfl List.Forall₂.nil) 5 1 0 st0

end RayTracing
